import Mathlib

/-!
Verification of the file-conversion service's job orchestration pipeline.

Shallow embedding of the Python sources under `app/`:
* `app/utils/file_handler.py`   — format validation, filename handling, cleanup
* `app/tasks/conversion_tasks.py` — the Celery conversion task and converter registry
* `app/services/conversion_service.py` — in-memory job store and status updates
* `app/services/converters/*.py` — converter contract, PDF→image bundling
* `app/celery_app.py`           — queue routing table

Machine strings are Lean `String`s; Python `str.lower`/`str.strip` are modelled
over the character list (ASCII-faithful, as all format names are ASCII).
The filesystem is modelled as an association list from path strings to file
nodes; opaque external libraries (PyMuPDF rendering, LibreOffice, zip writing)
are modelled by explicit outcome parameters at their call sites.
-/

/-! ## Python string primitives used by the sources -/

/-- Python `str.lower()` (ASCII-faithful model, in effect `String.toLower`). -/
def pyLower (s : String) : String := ⟨s.data.map Char.toLower⟩

/-- Python `str.upper()` (ASCII-faithful model). -/
def pyUpper (s : String) : String := ⟨s.data.map Char.toUpper⟩

/-- Python `str.strip()`: remove leading and trailing whitespace. -/
def pyStrip (s : String) : String :=
  ⟨((s.data.dropWhile Char.isWhitespace).reverse.dropWhile Char.isWhitespace).reverse⟩

/-! ## Converter registry

`get_converter` in `app/tasks/conversion_tasks.py` (lines 137–171; the copy in
`app/services/conversion_service.py` is textually identical) and
`validate_conversion_format` in `app/utils/file_handler.py` (lines 352–384). -/

/-- The five converter classes of `app/services/converters/`. -/
inductive ConverterKind where
  | pdfToWord
  | wordToPdf
  | excelToPdf
  | imageToPdf
  | pdfToImage
deriving DecidableEq, Repr

/-- The `supported_pairs` list of `validate_conversion_format`
(`app/utils/file_handler.py`, lines 368–379). -/
def supported_pairs : List (String × String) :=
  [("pdf", "docx"), ("docx", "pdf"), ("doc", "pdf"), ("xlsx", "pdf"), ("xls", "pdf"),
   ("jpg", "pdf"), ("jpeg", "pdf"), ("png", "pdf"), ("pdf", "png"), ("pdf", "jpg")]

/-- `validate_conversion_format(from_format, to_format)` from
`app/utils/file_handler.py`: normalizes with `.lower().strip()` and checks
membership in `supported_pairs`, returning `(is_valid, error_message)`. -/
def validate_conversion_format (from_format to_format : String) : Bool × String :=
  let from_fmt := pyStrip (pyLower from_format)
  let to_fmt := pyStrip (pyLower to_format)
  if (from_fmt, to_fmt) ∈ supported_pairs then (true, "")
  else (false, "Conversion from '" ++ from_fmt ++ "' to '" ++ to_fmt ++ "' is not supported")

/-- The branch chain of `get_converter` on the already-lowercased formats
(`app/tasks/conversion_tasks.py`, lines 148–171). -/
def converter_for (from_fmt to_fmt : String) : Option ConverterKind :=
  if from_fmt = "pdf" ∧ (to_fmt = "docx" ∨ to_fmt = "doc") then some .pdfToWord
  else if (from_fmt = "docx" ∨ from_fmt = "doc") ∧ to_fmt = "pdf" then some .wordToPdf
  else if (from_fmt = "xlsx" ∨ from_fmt = "xls") ∧ to_fmt = "pdf" then some .excelToPdf
  else if (from_fmt = "jpg" ∨ from_fmt = "jpeg" ∨ from_fmt = "png") ∧ to_fmt = "pdf" then
    some .imageToPdf
  else if from_fmt = "pdf" ∧ (to_fmt = "png" ∨ to_fmt = "jpg" ∨ to_fmt = "jpeg") then
    some .pdfToImage
  else none

/-- `get_converter(from_format, to_format)` from `app/tasks/conversion_tasks.py`:
lowercases (without stripping) and dispatches on the format pair. -/
def get_converter (from_format to_format : String) : Option ConverterKind :=
  converter_for (pyLower from_format) (pyLower to_format)

/-- The exact set of lowercased pairs for which `get_converter` returns a
converter: the ten validated pairs plus `(pdf, doc)` and `(pdf, jpeg)`. -/
def converter_pairs : List (String × String) :=
  [("pdf", "docx"), ("pdf", "doc"), ("docx", "pdf"), ("doc", "pdf"), ("xlsx", "pdf"),
   ("xls", "pdf"), ("jpg", "pdf"), ("jpeg", "pdf"), ("png", "pdf"), ("pdf", "png"),
   ("pdf", "jpg"), ("pdf", "jpeg")]

/-! ## Job store and status updates

`app/services/conversion_service.py`: the in-memory `jobs_db` record for one
job, `create_job`, `update_job_status` (lines 57–74) and `process_conversion`
(lines 76–116).  Timestamps (`datetime.now()`) are abstracted to `Int` values
supplied by the caller; the converter invocation inside `process_conversion`
is opaque and is modelled by an explicit outcome parameter. -/

/-- `ConversionStatus` from `app/api/schemas/conversion.py`. -/
inductive ConversionStatus where
  | pending
  | processing
  | completed
  | failed
deriving DecidableEq, Repr

/-- One record of `jobs_db` (`create_job`, lines 31–41). -/
structure Job where
  status : ConversionStatus
  input_path : String
  from_format : String
  to_format : String
  created_at : Int
  completed_at : Option Int
  error : Option String
  output_path : Option String
deriving DecidableEq, Repr

/-- `create_job(job_id, input_path, from_format, to_format)`: fresh PENDING
record with `completed_at`, `error` and `output_path` all `None`. -/
def create_job (input_path from_format to_format : String) (now : Int) : Job :=
  { status := .pending
    input_path := input_path
    from_format := pyLower from_format
    to_format := pyLower to_format
    created_at := now
    completed_at := none
    error := none
    output_path := none }

/-- Python truthiness of an `Optional[str]` (`if error:`): `None` and the
empty string are falsy. -/
def pyTruthy : Option String → Bool
  | none => false
  | some s => s ≠ ""

/-- `update_job_status(job_id, status, error)`: always overwrites `status`,
overwrites `error` only when truthy, and sets `completed_at` only when the
new status is COMPLETED (notably not on FAILED). -/
def update_job_status (j : Job) (status : ConversionStatus) (error : Option String)
    (now : Int) : Job :=
  { j with
    status := status
    error := if pyTruthy error then error else j.error
    completed_at := if status = .completed then some now else j.completed_at }

/-- Outcome of the opaque `converter.convert` call inside `process_conversion`:
either a returned `(success, message)` pair or a raised exception. -/
inductive ConvOutcome where
  | ret (success : Bool) (message : String)
  | raised (msg : String)
deriving DecidableEq, Repr

/-- `process_conversion(job_id)` acting on an existing job: sets PROCESSING,
runs the converter, then on `success` stores `output_path` and completes, on a
failure result or exception sets FAILED with the error message. -/
def process_conversion (j : Job) (outc : ConvOutcome) (output_path : String)
    (now : Int) : Job :=
  let j1 := update_job_status j .processing none now
  match outc with
  | .raised m => update_job_status j1 .failed (some m) now
  | .ret success message =>
    if success then
      let j2 := { j1 with output_path := some output_path }
      update_job_status j2 .completed none now
    else
      update_job_status j1 .failed (some message) now

/-- One observable mutation step on a job record: a direct
`update_job_status` call or a whole `process_conversion` run. -/
inductive JobStep where
  | update (status : ConversionStatus) (error : Option String) (now : Int)
  | process (outc : ConvOutcome) (output_path : String) (now : Int)
deriving DecidableEq, Repr

/-- Apply one mutation step to a job record. -/
def applyStep (j : Job) : JobStep → Job
  | .update status error now => update_job_status j status error now
  | .process outc output_path now => process_conversion j outc output_path now

/-- Apply a sequence of mutation steps. -/
def runSteps (j : Job) (steps : List JobStep) : Job :=
  steps.foldl applyStep j

/-- Does the step set the status to COMPLETED (direct update to COMPLETED, or
a `process_conversion` whose converter returned success)? -/
def completesJob : JobStep → Prop
  | .update status _ _ => status = .completed
  | .process (.ret success _) _ _ => success = true
  | .process (.raised _) _ _ => False

/-- Is the step a `process_conversion` run whose converter returned success
(the only step that writes `output_path`)? -/
def writesOutput : JobStep → Prop
  | .update _ _ _ => False
  | .process (.ret success _) _ _ => success = true
  | .process (.raised _) _ _ => False

/-! ## Celery task retry and time-limit semantics

`convert_file_task` in `app/tasks/conversion_tasks.py` is declared with
`max_retries=3, default_retry_delay=60` (lines 41–47).  Its error handling
(lines 127–134): `SoftTimeLimitExceeded` is logged and re-raised (no retry);
every other exception reaches `raise self.retry(exc=exc)`.  Celery's `retry`
schedules a re-run of the whole task after `default_retry_delay` seconds while
`request.retries < max_retries`, and re-raises the original exception
(terminal failure) once the retry budget is exhausted.  Soft/hard time limits
come from `app/core/config.py` lines 74–77. -/

/-- `max_retries=3` on the `convert_file_task` decorator. -/
def max_retries : Nat := 3

/-- `default_retry_delay=60` (seconds) on the `convert_file_task` decorator. -/
def default_retry_delay : Nat := 60

/-- `CELERY_TASK_TIME_LIMIT` (hard limit, seconds) from `app/core/config.py`. -/
def CELERY_TASK_TIME_LIMIT : Nat := 600

/-- `CELERY_TASK_SOFT_TIME_LIMIT` (soft limit, seconds) from `app/core/config.py`. -/
def CELERY_TASK_SOFT_TIME_LIMIT : Nat := 300

/-- Outcome of one execution attempt of the task body: normal return,
the `SoftTimeLimitExceeded` condition, or any other exception. -/
inductive ExecOutcome where
  | ok (result : String)
  | softLimit
  | exc (msg : String)
deriving DecidableEq, Repr

/-- What one attempt of `convert_file_task` does, as seen by the queue:
return a value, fail terminally, or schedule a retry after `delay` seconds. -/
inductive TaskStep where
  | succeeded (result : String)
  | failedTerminal
  | retryScheduled (delay : Nat)
deriving DecidableEq, Repr

/-- One attempt of `convert_file_task` with `retries` prior retries:
`SoftTimeLimitExceeded` is re-raised (terminal, never retried); any other
exception goes through `self.retry(exc=exc)`, which schedules a re-run after
`default_retry_delay` while retries remain and otherwise re-raises the
original exception (terminal). -/
def convert_file_task_step (retries : Nat) (e : ExecOutcome) : TaskStep :=
  match e with
  | .ok r => .succeeded r
  | .softLimit => .failedTerminal
  | .exc _ => if retries < max_retries then .retryScheduled default_retry_delay
              else .failedTerminal

/-- The whole lifecycle of one job: run attempts against the given sequence of
execution outcomes, re-running the entire job after each scheduled retry. -/
def runTaskTrace (retries : Nat) : List ExecOutcome → List TaskStep
  | [] => []
  | e :: rest =>
    match convert_file_task_step retries e with
    | .retryScheduled d => .retryScheduled d :: runTaskTrace (retries + 1) rest
    | s => [s]

/-- Is the step a scheduled retry? -/
def isRetrySched : TaskStep → Bool
  | .retryScheduled _ => true
  | _ => false

/-! ## Queue routing

`app/celery_app.py` lines 32–42 (`task_routes`, `task_default_queue`) and the
live submission path `app/api/routes/conversion.py` lines 84–86, which always
dispatches `convert_file_task` via `apply_async`. -/

/-- The `task_routes` table of `app/celery_app.py`. -/
def task_routes : List (String × String) :=
  [("app.tasks.conversion_tasks.convert_pdf_to_word", "pdf_queue"),
   ("app.tasks.conversion_tasks.convert_word_to_pdf", "office_queue"),
   ("app.tasks.conversion_tasks.convert_excel_to_pdf", "office_queue"),
   ("app.tasks.conversion_tasks.convert_image_to_pdf", "image_queue"),
   ("app.tasks.conversion_tasks.convert_pdf_to_image", "pdf_queue"),
   ("app.tasks.conversion_tasks.convert_file_task", "default")]

/-- `task_default_queue = "default"`. -/
def task_default_queue : String := "default"

/-- Queue an enqueued task lands on: the `task_routes` entry for its name, or
the default queue when unrouted. -/
def route_queue (taskName : String) : String :=
  match task_routes.lookup taskName with
  | some q => q
  | none => task_default_queue

/-- The task the submission endpoint actually enqueues
(`convert_file_task.apply_async` in `app/api/routes/conversion.py` line 84),
for every accepted `(from_format, to_format)` pair. -/
def submitted_task_name (from_format to_format : String) : String :=
  "app.tasks.conversion_tasks.convert_file_task"

/-- Queue a job accepted by `POST /api/convert` is enqueued on. -/
def submitted_queue (from_format to_format : String) : String :=
  route_queue (submitted_task_name from_format to_format)

/-! ## Filesystem model

The disk is an association list from path strings to file nodes.  A node
records whether it is a regular file, its size in bytes, the entry names it
contains when it is a zip archive, and a modification time (used by the
retention sweeper). -/

/-- One on-disk object. -/
structure FNode where
  isFile : Bool := true
  size : Nat := 1
  entries : List String := []
  mtime : Int := 0
deriving DecidableEq, Repr

/-- A filesystem snapshot: paths mapped to nodes (first binding wins). -/
abbrev FS := List (String × FNode)

/-- Node stored at `p`, if any (`Path.exists()` is `isSome` of this). -/
def FS.look (fs : FS) (p : String) : Option FNode :=
  (fs.find? (fun e => e.1 == p)).map Prod.snd

/-- `Path.exists()`. -/
def FS.hasPath (fs : FS) (p : String) : Bool :=
  (fs.look p).isSome

/-- Create or overwrite the file at `p`. -/
def FS.write (fs : FS) (p : String) (n : FNode) : FS :=
  (p, n) :: fs.filter (fun e => !(e.1 == p))

/-- `Path.unlink()`. -/
def FS.unlink (fs : FS) (p : String) : FS :=
  fs.filter (fun e => !(e.1 == p))

/-! ## Converter contract

`BaseConverter.validate_input` (`app/services/converters/base.py`, lines
27–43) checks only `exists()` and `is_file()` — it does not inspect the size.
`validate_input_claimed` is modelled from the spec's words — "input exists and
is a regular, non-empty file" — for comparison. -/

/-- `BaseConverter.validate_input(input_path)`: `exists()` and `is_file()`. -/
def validate_input (fs : FS) (input_path : String) : Bool :=
  match fs.look input_path with
  | none => false
  | some n => n.isFile

/-- Modelled from the spec: the precondition the spec says every converter
enforces itself — "input exists and is a regular, non-empty file". -/
def validate_input_claimed (fs : FS) (input_path : String) : Bool :=
  match fs.look input_path with
  | none => false
  | some n => n.isFile && n.size != 0

/-! ## Path string helpers (pathlib / os.path semantics) -/

/-- Final path component: `os.path.basename` (the text after the last `/`,
i.e. the longest `/`-free tail), which agrees with `PurePath.name` for paths
without a trailing slash. -/
def lastComponent (p : String) : String :=
  ⟨(p.data.reverse.takeWhile (fun c => !(c == '/'))).reverse⟩

/-- `PurePath.suffix`: with `name` the final component and `i` the index of
the last dot, the suffix is `name[i:]` when `0 < i < len(name) - 1`, else
empty.  Implemented from the right: `post` is the run of non-dot characters
at the end, so the last dot sits at index `len - 1 - len(post)`. -/
def pathSuffix (p : String) : String :=
  let name := (lastComponent p).data
  let rev := name.reverse
  let post := rev.takeWhile (fun c => !(c == '.'))
  if post.length = rev.length then ""
  else if post.length + 1 = rev.length then ""
  else if post.length = 0 then ""
  else ⟨'.' :: post.reverse⟩

/-- `str.lstrip('.')`. -/
def lstripDots (s : String) : String :=
  ⟨s.data.dropWhile (fun c => c == '.')⟩

/-- `PurePath.with_suffix(suffix)`: drop the current suffix from the end and
append the new one. -/
def withSuffix (p : String) (suffix : String) : String :=
  ⟨p.data.take (p.data.length - (pathSuffix p).length)⟩ ++ suffix

/-- Python `f"{n:03d}"`: decimal digits left-padded with zeros to width 3. -/
def pad3 (n : Nat) : String :=
  let s := Nat.repr n
  if s.length < 3 then ⟨List.replicate (3 - s.length) '0'⟩ ++ s else s

/-- `f"page_{page_num + 1:03d}.{output_format.lower()}"` from
`app/services/converters/pdf_to_image.py` line 99 (`pageNum` already 1-based
here). -/
def page_filename (fmt : String) (pageNum : Nat) : String :=
  "page_" ++ pad3 pageNum ++ "." ++ fmt

/-! ## PDF → image converter

`PdfToImageConverter.convert` (`app/services/converters/pdf_to_image.py`).
Opaque external effects are parameters: `page_count` is what `fitz.open`
reports, `temp_dir` is the directory `tempfile.mkdtemp()` returns, and
`PdfRenderFailure` says whether (and where) the opaque rendering or archive
writing raises.  `atRender k` raises while rendering/saving page `k`
(0-based, before it is recorded in `image_files`); `atZip w` raises while
writing the archive after `w` entries were added, the partially written
archive being on disk.  The `except` handler (lines 140–148) behaves very
differently at the two stages.  On a rendering-stage failure the document is
still open: the handler closes it, unlinks the recorded page images, removes
the temp directory and re-raises.  On an archive-stage failure the document
was already closed at line 116, so the handler's first statement
`pdf_document.close()` itself raises PyMuPDF's "document closed" ValueError:
the unlink loop and `rmdir` never run, nothing is cleaned up, and the
exception that escapes carries "document closed" rather than the original
error.  Either way the outer handler (lines 150–151) turns the escaping
exception into a `(False, "PDF to image conversion failed: ...")` result. -/

/-- Failure injection point for the opaque rendering / zip-writing calls. -/
inductive PdfRenderFailure where
  | noFail
  | atRender (k : Nat) (msg : String)
  | atZip (written : Nat) (msg : String)
deriving DecidableEq, Repr

/-- `output_format` computation (lines 42–44): suffix without the dot,
uppercased, with `JPG` mapped to `JPEG`. -/
def pdfOutputFormat (output_path : String) : String :=
  let f := pyUpper (lstripDots (pathSuffix output_path))
  if f = "JPG" then "JPEG" else f

/-- Path of the intermediate image for (1-based) page `i`. -/
def pagePath (temp_dir output_path : String) (i : Nat) : String :=
  temp_dir ++ "/" ++ page_filename (pyLower (pdfOutputFormat output_path)) i

/-- The failure-free multi-page body (lines 88–138): render every page, write
the archive (entry names are `img_file.name`), unlink the intermediates,
unlink a pre-existing file at `output_path`, then check the archive exists. -/
def pdf_to_image_run (fs : FS) (pagePaths : List String)
    (zip_path output_path : String) (page_count : Nat) : FS × Bool × String :=
  let fs1 := pagePaths.foldl (fun a p => a.write p {}) fs
  let fs2 := fs1.write zip_path { entries := pagePaths.map lastComponent }
  let fs3 := pagePaths.foldl (fun a p => a.unlink p) fs2
  let fs4 := if zip_path ≠ output_path ∧ fs3.hasPath output_path then fs3.unlink output_path else fs3
  if ¬ fs4.hasPath zip_path then
    (fs4, false, "Conversion failed: ZIP file not created")
  else
    (fs4, true, "PDF converted to images successfully (" ++ Nat.repr page_count ++ " pages in ZIP)")

/-- `PdfToImageConverter.convert(input_path, output_path)`. -/
def pdf_to_image_convert (fs : FS) (input_path output_path : String)
    (page_count : Nat) (temp_dir : String) (fail : PdfRenderFailure) :
    FS × Bool × String :=
  if ¬ validate_input fs input_path then
    (fs, false, "Input file not found or invalid: " ++ input_path)
  else if page_count = 0 then
    (fs, false, "No pages found in PDF")
  else if page_count = 1 then
    match fail with
    | .atRender _ m => (fs, false, "PDF to image conversion failed: " ++ m)
    | _ =>
      let fs1 := fs.write output_path {}
      if ¬ fs1.hasPath output_path then
        (fs1, false, "Conversion failed: output file not created")
      else
        (fs1, true, "PDF converted to image successfully (1 page)")
  else
    let pagePaths := (List.range page_count).map (fun i => pagePath temp_dir output_path (i + 1))
    let zip_path := withSuffix output_path ".zip"
    match fail with
    | .atRender k m =>
      if k < page_count then
        let written := (List.range k).map (fun i => pagePath temp_dir output_path (i + 1))
        let fs1 := written.foldl (fun a p => a.write p {}) fs
        let fs2 := written.foldl (fun a p => a.unlink p) fs1
        (fs2, false, "PDF to image conversion failed: " ++ m)
      else
        pdf_to_image_run fs pagePaths zip_path output_path page_count
    | .atZip w _ =>
      let fs1 := pagePaths.foldl (fun a p => a.write p {}) fs
      let fs2 := fs1.write zip_path { entries := (pagePaths.map lastComponent).take w }
      (fs2, false, "PDF to image conversion failed: document closed")
    | .noFail =>
      pdf_to_image_run fs pagePaths zip_path output_path page_count


/-! ## The other four converters (thin models)

Each of `pdf_to_word.py`, `word_to_pdf.py`, `excel_to_pdf.py` and
`image_to_pdf.py` begins with the same guard —
`if not self.validate_input(input_path): return False, "Input file not found
or invalid: ..."` — and then drives an opaque external tool (pdf2docx,
LibreOffice, img2pdf).  The tool is modelled as an outcome parameter: the
files it writes, or the exception it raises (which each converter catches
and converts into a `(False, message)` result). -/

/-- Behaviour of the opaque external conversion tool. -/
inductive ToolOutcome where
  | writes (out : List (String × FNode))
  | raises (msg : String)
deriving Repr

/-- `PdfToWordConverter.convert`: guard, run pdf2docx, check the output
exists. -/
def pdf_to_word_convert (fs : FS) (input_path output_path : String)
    (tool : ToolOutcome) : FS × Bool × String :=
  if ¬ validate_input fs input_path then
    (fs, false, "Input file not found or invalid: " ++ input_path)
  else
    match tool with
    | .raises m => (fs, false, "PDF to Word conversion failed: " ++ m)
    | .writes out =>
      let fs1 := out.foldl (fun a e => a.write e.1 e.2) fs
      if ¬ fs1.hasPath output_path then
        (fs1, false, "Conversion failed: output file not created")
      else
        (fs1, true, "PDF converted to Word successfully")

/-- `WordToPdfConverter.convert`: guard, locate LibreOffice, run it, check
the output exists.  The LibreOffice lookup and the rename of its output file
are folded into `libreoffice_found` and the tool outcome. -/
def word_to_pdf_convert (fs : FS) (input_path output_path : String)
    (libreoffice_found : Bool) (tool : ToolOutcome) : FS × Bool × String :=
  if ¬ validate_input fs input_path then
    (fs, false, "Input file not found or invalid: " ++ input_path)
  else if ¬ libreoffice_found then
    (fs, false, "LibreOffice not found. Please install LibreOffice or set LIBREOFFICE_PATH.")
  else
    match tool with
    | .raises m => (fs, false, "Word to PDF conversion failed: " ++ m)
    | .writes out =>
      let fs1 := out.foldl (fun a e => a.write e.1 e.2) fs
      if fs1.hasPath output_path then
        (fs1, true, "Word converted to PDF successfully")
      else
        (fs1, false, "Word to PDF conversion failed: Unknown error")

/-- `ExcelToPdfConverter.convert`: same shape as the Word converter. -/
def excel_to_pdf_convert (fs : FS) (input_path output_path : String)
    (libreoffice_found : Bool) (tool : ToolOutcome) : FS × Bool × String :=
  if ¬ validate_input fs input_path then
    (fs, false, "Input file not found or invalid: " ++ input_path)
  else if ¬ libreoffice_found then
    (fs, false, "LibreOffice not found at configured path. Please install LibreOffice.")
  else
    match tool with
    | .raises m => (fs, false, "Excel to PDF conversion failed: " ++ m)
    | .writes out =>
      let fs1 := out.foldl (fun a e => a.write e.1 e.2) fs
      if fs1.hasPath output_path then
        (fs1, true, "Excel converted to PDF successfully")
      else
        (fs1, false, "Excel to PDF conversion failed: Unknown error")

/-- `ImageToPdfConverter.convert`: guard, run img2pdf, check the output
exists. -/
def image_to_pdf_convert (fs : FS) (input_path output_path : String)
    (tool : ToolOutcome) : FS × Bool × String :=
  if ¬ validate_input fs input_path then
    (fs, false, "Input file not found or invalid: " ++ input_path)
  else
    match tool with
    | .raises m => (fs, false, "Image to PDF conversion failed: " ++ m)
    | .writes out =>
      let fs1 := out.foldl (fun a e => a.write e.1 e.2) fs
      if ¬ fs1.hasPath output_path then
        (fs1, false, "Conversion failed: output file not created")
      else
        (fs1, true, "Image converted to PDF successfully")

/-- Environment for a converter run: the opaque effects each converter may
consult. -/
structure ConvEnv where
  tool : ToolOutcome := .raises ""
  libreoffice_found : Bool := true
  page_count : Nat := 1
  temp_dir : String := "/tmp/t"
  pdf_fail : PdfRenderFailure := .noFail

/-- Dispatch `convert` on the converter kind (the `Converter` contract of the
registry). -/
def converter_convert (k : ConverterKind) (env : ConvEnv) (fs : FS)
    (input_path output_path : String) : FS × Bool × String :=
  match k with
  | .pdfToWord => pdf_to_word_convert fs input_path output_path env.tool
  | .wordToPdf => word_to_pdf_convert fs input_path output_path env.libreoffice_found env.tool
  | .excelToPdf => excel_to_pdf_convert fs input_path output_path env.libreoffice_found env.tool
  | .imageToPdf => image_to_pdf_convert fs input_path output_path env.tool
  | .pdfToImage =>
    pdf_to_image_convert fs input_path output_path env.page_count env.temp_dir env.pdf_fail

/-! ## Retention sweeper

`cleanup_old_files` (`app/utils/file_handler.py`, lines 295–349), local
storage branch: for each of the upload and output directories, delete every
regular file whose modification time is strictly older than
`now - retention_hours`; a failing `unlink` is caught, logged and skipped.
`unlinkFails` models which paths raise on deletion (a property of the file,
e.g. permissions, so it is a deterministic function of the path). -/

/-- A directory entry as seen by `Path.iterdir()`. -/
structure SwFile where
  name : String
  isFile : Bool
  mtime : Int
deriving DecidableEq, Repr

/-- Sweep one directory: returns the surviving entries and the number of
files deleted.  Mirrors the `for file_path in directory.iterdir()` loop. -/
def sweepDir (cutoff : Int) (unlinkFails : String → Bool) :
    List SwFile → List SwFile × Nat
  | [] => ([], 0)
  | f :: rest =>
    let r := sweepDir cutoff unlinkFails rest
    if f.isFile ∧ f.mtime < cutoff then
      if unlinkFails f.name then (f :: r.1, r.2) else (r.1, r.2 + 1)
    else (f :: r.1, r.2)

/-- `cleanup_old_files(retention_hours)` over the scanned directories
(`settings.upload_path`, `settings.output_path`):
`cutoff_time = datetime.now() - timedelta(hours=retention_hours)`. -/
def cleanup_old_files (now retention_hours : Int) (unlinkFails : String → Bool)
    (dirs : List (List SwFile)) : List (List SwFile) × Nat :=
  let cutoff := now - retention_hours
  dirs.foldr (fun d acc =>
    let r := sweepDir cutoff unlinkFails d
    (r.1 :: acc.1, r.2 + acc.2)) ([], 0)

/-- Does one sweep delete this entry: a regular file strictly older than the
cutoff whose `unlink` does not raise. -/
def sweepDeletes (cutoff : Int) (unlinkFails : String → Bool) (f : SwFile) : Bool :=
  f.isFile && decide (f.mtime < cutoff) && !(unlinkFails f.name)

/-! ## Upload filename handling

`sanitize_filename` (`app/utils/file_handler.py`, lines 54–78),
`get_file_extension` (lines 81–91) and the filename construction of
`save_upload_file` (lines 169–174).  Python's `\w` (with `re.UNICODE`) also
matches non-ASCII word characters; the model keeps the ASCII core
`[A-Za-z0-9_]`, which is what every format/extension here uses. -/

/-- A character kept by `re.sub(r'[^\w\s\.\-]', '', filename)`. -/
def keepChar (c : Char) : Bool :=
  c.isAlphanum || c == '_' || c.isWhitespace || c == '.' || c == '-'

/-- `os.path.splitext`: split at the last dot, unless every character before
it (in the basename) is a dot — leading dots are part of the root. -/
def pySplitext (s : String) : String × String :=
  let cs := s.data
  let rev := cs.reverse
  let post := rev.takeWhile (fun c => !(c == '.'))
  if post.length = rev.length then (s, "")
  else
    let i := cs.length - 1 - post.length
    if (cs.take i).all (fun c => c == '.') then (s, "")
    else (⟨cs.take i⟩, ⟨cs.drop i⟩)

/-- `sanitize_filename(filename)`: basename, strip special characters,
spaces to underscores, truncate over-long names keeping the extension. -/
def sanitize_filename (filename : String) : String :=
  let f := lastComponent filename
  let f : String := ⟨f.data.filter keepChar⟩
  let f : String := ⟨f.data.map (fun c => if c == ' ' then '_' else c)⟩
  if f.length > 255 then
    let ne := pySplitext f
    ⟨ne.1.data.take 250⟩ ++ ne.2
  else f

/-- `get_file_extension(filename)`: `Path(filename).suffix.lstrip('.').lower()`. -/
def get_file_extension (filename : String) : String :=
  pyLower (lstripDots (pathSuffix filename))

/-- The stored name built by `save_upload_file`:
`f"{job_id}_input.{extension}"` with `extension` taken from the sanitized
client filename. -/
def unique_input_filename (job_id : String) (client_filename : String) : String :=
  let safe_filename := sanitize_filename client_filename
  let extension := get_file_extension safe_filename
  job_id ++ "_input." ++ extension

/-- Where `save_upload_file` writes: directly under the upload (or cloud
scratch) directory, final component `unique_input_filename`. -/
def saved_upload_path (base_dir job_id client_filename : String) : String :=
  base_dir ++ "/" ++ unique_input_filename job_id client_filename

/-- Decimal value of a digit string (zero for non-digits); left inverse of
`Nat.repr` used to show padded page ordinals are distinct. -/
def digitsVal (cs : List Char) : Nat :=
  cs.foldl (fun a c => 10 * a + (c.toNat - 48)) 0

/-! # Helper lemmas -/

theorem converter_for_mem (a b : String) :
    (converter_for a b).isSome ↔ (a, b) ∈ converter_pairs := by
  unfold converter_for converter_pairs
  split_ifs with h1 h2 h3 h4 h5 <;>
    simp_all [Prod.ext_iff] <;> tauto

theorem applyStep_completed_at (j : Job) (st : JobStep) :
    (applyStep j st).completed_at ≠ none ↔ completesJob st ∨ j.completed_at ≠ none := by
  cases st with
  | update s e n =>
    simp only [applyStep, update_job_status, completesJob]
    split_ifs with h <;> simp [h]
  | process outc p n =>
    cases outc with
    | raised m => simp [applyStep, process_conversion, update_job_status, completesJob]
    | ret success message =>
      simp only [applyStep, process_conversion, update_job_status, completesJob]
      by_cases h : success = true <;> simp [h]

theorem applyStep_output_path (j : Job) (st : JobStep) :
    (applyStep j st).output_path ≠ none ↔ writesOutput st ∨ j.output_path ≠ none := by
  cases st with
  | update s e n => simp [applyStep, update_job_status, writesOutput]
  | process outc p n =>
    cases outc with
    | raised m => simp [applyStep, process_conversion, update_job_status, writesOutput]
    | ret success message =>
      simp only [applyStep, process_conversion, update_job_status, writesOutput]
      by_cases h : success = true <;> simp [h]

theorem runSteps_completed_at (j : Job) (steps : List JobStep) :
    (runSteps j steps).completed_at ≠ none ↔
      (∃ st ∈ steps, completesJob st) ∨ j.completed_at ≠ none := by
  induction steps generalizing j with
  | nil => simp [runSteps]
  | cons st rest ih =>
    simp only [runSteps, List.foldl_cons] at *
    rw [ih (applyStep j st), applyStep_completed_at, List.exists_mem_cons_iff]
    exact or_left_comm.trans or_assoc.symm

theorem runSteps_output_path (j : Job) (steps : List JobStep) :
    (runSteps j steps).output_path ≠ none ↔
      (∃ st ∈ steps, writesOutput st) ∨ j.output_path ≠ none := by
  induction steps generalizing j with
  | nil => simp [runSteps]
  | cons st rest ih =>
    simp only [runSteps, List.foldl_cons] at *
    rw [ih (applyStep j st), applyStep_output_path, List.exists_mem_cons_iff]
    exact or_left_comm.trans or_assoc.symm

theorem process_conversion_single (j : Job) (h1 : j.completed_at = none)
    (h2 : j.output_path = none) (outc : ConvOutcome) (p : String) (now : Int) :
    ((process_conversion j outc p now).completed_at ≠ none ↔
      (process_conversion j outc p now).status = .completed) ∧
    ((process_conversion j outc p now).output_path ≠ none ↔
      (process_conversion j outc p now).status = .completed) := by
  cases outc with
  | raised m => simp [process_conversion, update_job_status, h1, h2]
  | ret success message =>
    by_cases h : success = true <;>
      simp [process_conversion, update_job_status, h, h1, h2]

/-! # Claim theorems -/

/-- C1, counterexample: `get_converter` and `validate_conversion_format` do
not accept the same pairs — `(pdf, doc)` gets a converter instance but is
rejected by validation, so the claimed equivalence is false. -/
theorem C1_registry_counterexample :
    (get_converter "pdf" "doc").isSome = true ∧
    (validate_conversion_format "pdf" "doc").1 = false := by
  constructor <;> decide

/-- C1, amended: `validate_conversion_format` accepts exactly the pairs whose
lowercased-stripped form is in the fixed ten-pair set, while `get_converter`
(which lowercases but does not strip) returns a converter exactly for the
lowercased pairs in that set extended with `(pdf, doc)` and `(pdf, jpeg)` —
a strict superset, so converter availability strictly exceeds validation. -/
theorem C1_registry_amended (f t : String) :
    ((get_converter f t).isSome ↔ (pyLower f, pyLower t) ∈ converter_pairs) ∧
    ((validate_conversion_format f t).1 = true ↔
      (pyStrip (pyLower f), pyStrip (pyLower t)) ∈ supported_pairs) ∧
    (∀ p ∈ supported_pairs, p ∈ converter_pairs) ∧
    ("pdf", "doc") ∈ converter_pairs ∧ ("pdf", "doc") ∉ supported_pairs ∧
    ("pdf", "jpeg") ∈ converter_pairs ∧ ("pdf", "jpeg") ∉ supported_pairs := by
  refine ⟨?_, ?_, ?_, by decide, by decide, by decide, by decide⟩
  · simpa [get_converter] using converter_for_mem (pyLower f) (pyLower t)
  · unfold validate_conversion_format
    simp only []
    split_ifs with h <;> simp [h]
  · decide

/-- C1, witness: at `(jpg, pdf)` both the registry and the validator accept,
and the membership facts instantiate concretely. -/
theorem C1_registry_amended_witness :
    (get_converter "jpg" "pdf").isSome ∧ ("jpg", "pdf") ∈ converter_pairs := by
  have h := C1_registry_amended "jpg" "pdf"
  exact ⟨h.1.mpr (by decide), h.2.2.1 ("jpg", "pdf") (by decide)⟩

/-- C2, counterexample: after `create_job` followed by
`update_job_status(FAILED)`, the job's status is FAILED but `completed_at` is
still null — `update_job_status` stamps `completed_at` only on COMPLETED —
contradicting the claimed `completed_at ≠ null ⟺ status ∈ {COMPLETED,
FAILED}`. -/
theorem C2_job_invariant_counterexample :
    (runSteps (create_job "in.pdf" "pdf" "docx" 0)
      [.update .failed (some "conversion failed") 1]).status = .failed ∧
    (runSteps (create_job "in.pdf" "pdf" "docx" 0)
      [.update .failed (some "conversion failed") 1]).completed_at = none := by
  constructor <;> rfl

/-- C2, amended: after `create_job` and any sequence of `update_job_status` /
`process_conversion` steps, `completed_at` is non-null iff some step set the
status to COMPLETED, and `output_path` is non-null iff some
`process_conversion` step succeeded; in particular a job that only ever
failed has `completed_at = null` and `output_path = null`.  After a single
`process_conversion` run both fields are non-null exactly when the status is
COMPLETED. -/
theorem C2_job_invariant_amended :
    (∀ (input fromF toF : String) (now : Int) (steps : List JobStep),
      ((runSteps (create_job input fromF toF now) steps).completed_at ≠ none ↔
        ∃ st ∈ steps, completesJob st) ∧
      ((runSteps (create_job input fromF toF now) steps).output_path ≠ none ↔
        ∃ st ∈ steps, writesOutput st)) ∧
    (∀ (input fromF toF : String) (now now2 : Int) (outc : ConvOutcome) (p : String),
      ((process_conversion (create_job input fromF toF now) outc p now2).completed_at ≠ none ↔
        (process_conversion (create_job input fromF toF now) outc p now2).status = .completed) ∧
      ((process_conversion (create_job input fromF toF now) outc p now2).output_path ≠ none ↔
        (process_conversion (create_job input fromF toF now) outc p now2).status = .completed)) := by
  constructor
  · intro input fromF toF now steps
    constructor
    · rw [runSteps_completed_at]
      simp [create_job]
    · rw [runSteps_output_path]
      simp [create_job]
  · intro input fromF toF now now2 outc p
    exact process_conversion_single _ rfl rfl outc p now2

/-- C2, witness: a successful `process_conversion` run yields a COMPLETED job
with `completed_at` set. -/
theorem C2_job_invariant_amended_witness :
    (runSteps (create_job "in.pdf" "pdf" "docx" 0)
      [.process (.ret true "ok") "out.docx" 1]).completed_at ≠ none := by
  have h := (C2_job_invariant_amended.1 "in.pdf" "pdf" "docx" 0
    [.process (.ret true "ok") "out.docx" 1]).1
  exact h.mpr ⟨.process (.ret true "ok") "out.docx" 1, by simp, rfl⟩

theorem runTaskTrace_count (r : Nat) (es : List ExecOutcome) :
    (runTaskTrace r es).countP isRetrySched ≤ max_retries - r := by
  induction es generalizing r with
  | nil => simp [runTaskTrace]
  | cons e rest ih =>
    cases e with
    | ok s => simp [runTaskTrace, convert_file_task_step, isRetrySched]
    | softLimit => simp [runTaskTrace, convert_file_task_step, isRetrySched]
    | exc m =>
      by_cases h : r < max_retries
      · have := ih (r + 1)
        simp only [runTaskTrace, convert_file_task_step, h, if_true,
          List.countP_cons, isRetrySched]
        omega
      · simp [runTaskTrace, convert_file_task_step, h, isRetrySched]

theorem runTaskTrace_delay (r : Nat) (es : List ExecOutcome) (d : Nat) :
    TaskStep.retryScheduled d ∈ runTaskTrace r es → d = default_retry_delay := by
  induction es generalizing r with
  | nil => simp [runTaskTrace]
  | cons e rest ih =>
    cases e with
    | ok s => simp [runTaskTrace, convert_file_task_step]
    | softLimit => simp [runTaskTrace, convert_file_task_step]
    | exc m =>
      by_cases h : r < max_retries
      · simp only [runTaskTrace, convert_file_task_step, h, if_true, List.mem_cons]
        rintro (heq | hmem)
        · simpa using heq
        · exact ih (r + 1) hmem
      · simp [runTaskTrace, convert_file_task_step, h]

/-- C3: for any exception other than the soft-time-limit condition,
`convert_file_task` schedules a retry of the whole job with the fixed
60-second delay while retries remain; over any whole job lifecycle the number
of scheduled retries never exceeds `max_retries = 3`; and once the budget is
exhausted the next failure is terminal regardless of error kind. -/
theorem C3_retry_policy :
    (∀ (r : Nat) (m : String), r < max_retries →
      convert_file_task_step r (.exc m) = .retryScheduled default_retry_delay) ∧
    default_retry_delay = 60 ∧
    max_retries = 3 ∧
    (∀ es : List ExecOutcome, (runTaskTrace 0 es).countP isRetrySched ≤ max_retries) ∧
    (∀ (es : List ExecOutcome) (d : Nat),
      TaskStep.retryScheduled d ∈ runTaskTrace 0 es → d = default_retry_delay) ∧
    (∀ (r : Nat) (e : ExecOutcome), max_retries ≤ r → (∀ s, e ≠ .ok s) →
      convert_file_task_step r e = .failedTerminal) := by
  refine ⟨?_, rfl, rfl, ?_, ?_, ?_⟩
  · intro r m h
    simp [convert_file_task_step, h]
  · intro es
    simpa using runTaskTrace_count 0 es
  · intro es d h
    exact runTaskTrace_delay 0 es d h
  · intro r e h1 h2
    cases e with
    | ok s => exact absurd rfl (h2 s)
    | softLimit => rfl
    | exc m => simp [convert_file_task_step, Nat.not_lt.mpr h1]

/-- C3, witness: a first transient failure is retried after 60 seconds; a
fourth failure (retry budget 3 exhausted) is terminal. -/
theorem C3_retry_policy_witness :
    convert_file_task_step 0 (.exc "io error") = .retryScheduled 60 ∧
    convert_file_task_step 3 (.exc "io error") = .failedTerminal := by
  have h := C3_retry_policy
  refine ⟨?_, ?_⟩
  · simpa [h.2.1] using h.1 0 "io error" (by decide)
  · exact h.2.2.2.2.2 3 (.exc "io error") (by decide) (fun s => by simp)

/-- C4: the soft-time-limit condition is terminal on every attempt — it is
re-raised and never reaches the retry path — and a retry is only ever
scheduled for an ordinary exception; the soft limit (300 s) is strictly below
the hard limit (600 s). -/
theorem C4_soft_limit_fatal :
    (∀ r : Nat, convert_file_task_step r .softLimit = .failedTerminal) ∧
    (∀ r d : Nat, convert_file_task_step r .softLimit ≠ .retryScheduled d) ∧
    (∀ (r d : Nat) (e : ExecOutcome),
      convert_file_task_step r e = .retryScheduled d → ∃ m, e = .exc m) ∧
    CELERY_TASK_SOFT_TIME_LIMIT < CELERY_TASK_TIME_LIMIT := by
  refine ⟨fun r => rfl, fun r d => by simp [convert_file_task_step], ?_, by decide⟩
  intro r d e h
  cases e with
  | ok s => simp [convert_file_task_step] at h
  | softLimit => simp [convert_file_task_step] at h
  | exc m => exact ⟨m, rfl⟩

/-- C4, witness: on the very first attempt the soft-limit condition already
fails terminally and is not the source of any scheduled retry. -/
theorem C4_soft_limit_fatal_witness :
    convert_file_task_step 0 .softLimit = .failedTerminal ∧
    convert_file_task_step 0 .softLimit ≠ .retryScheduled 60 ∧
    (∃ m, ExecOutcome.exc "disk error" = ExecOutcome.exc m) := by
  refine ⟨C4_soft_limit_fatal.1 0, C4_soft_limit_fatal.2.1 0 60, ?_⟩
  exact C4_soft_limit_fatal.2.2.1 0 60 (.exc "disk error") (by decide)

theorem sweepDir_eq (cutoff : Int) (fails : String → Bool) (l : List SwFile) :
    sweepDir cutoff fails l =
      (l.filter (fun f => !(sweepDeletes cutoff fails f)),
       l.countP (sweepDeletes cutoff fails)) := by
  induction l with
  | nil => simp [sweepDir]
  | cons f rest ih =>
    by_cases hf : f.isFile = true
    · by_cases hm : f.mtime < cutoff
      · by_cases he : fails f.name = true
        · simp [sweepDir, ih, sweepDeletes, hf, hm, he, List.countP_cons]
        · simp only [Bool.not_eq_true] at he
          simp [sweepDir, ih, sweepDeletes, hf, hm, he, List.countP_cons]
      · simp [sweepDir, ih, sweepDeletes, hf, hm, List.countP_cons]
    · simp only [Bool.not_eq_true] at hf
      simp [sweepDir, ih, sweepDeletes, hf, List.countP_cons]

theorem cleanup_old_files_eq (now W : Int) (fails : String → Bool)
    (dirs : List (List SwFile)) :
    cleanup_old_files now W fails dirs =
      (dirs.map (fun d => d.filter (fun f => !(sweepDeletes (now - W) fails f))),
       (dirs.map (fun d => d.countP (sweepDeletes (now - W) fails))).sum) := by
  induction dirs with
  | nil => simp [cleanup_old_files]
  | cons d ds ih =>
    simp only [cleanup_old_files, List.foldr_cons, List.map_cons, List.sum_cons] at *
    rw [ih, sweepDir_eq]

/-- C9: a sweep with retention window `W` deletes exactly the regular files
whose modification time is strictly older than `now - W` (and whose deletion
does not error), leaving every newer file untouched; each entry's fate is a
per-file decision, so one file's deletion error never aborts the sweep of the
rest; and an immediate second run with the same clock and the same per-file
error behaviour deletes zero files and changes nothing. -/
theorem C9_sweeper_correct :
    (∀ (now W : Int) (fails : String → Bool) (dirs : List (List SwFile)),
      cleanup_old_files now W fails dirs =
        (dirs.map (fun d => d.filter (fun f => !(sweepDeletes (now - W) fails f))),
         (dirs.map (fun d => d.countP (sweepDeletes (now - W) fails))).sum)) ∧
    (∀ (now W : Int) (f : SwFile),
      sweepDeletes (now - W) (fun p => false) f = (f.isFile && decide (f.mtime < now - W))) ∧
    (∀ (now W : Int) (fails : String → Bool) (dirs : List (List SwFile)),
      cleanup_old_files now W fails ((cleanup_old_files now W fails dirs).1) =
        ((cleanup_old_files now W fails dirs).1, 0)) := by
  refine ⟨cleanup_old_files_eq, ?_, ?_⟩
  · intro now W f
    simp [sweepDeletes]
  · intro now W fails dirs
    rw [cleanup_old_files_eq, cleanup_old_files_eq, Prod.mk.injEq]
    refine ⟨?_, ?_⟩
    · rw [List.map_map]
      apply List.map_congr_left
      intro d hd
      simp only [Function.comp_apply]
      rw [List.filter_filter]
      apply List.filter_congr
      intro f hf
      cases sweepDeletes (now - W) fails f <;> rfl
    · rw [List.map_map]
      apply List.sum_eq_zero
      intro x hx
      rcases List.mem_map.mp hx with ⟨d, hd, rfl⟩
      simp only [Function.comp_apply]
      rw [List.countP_eq_zero]
      intro f hf
      have hkeep := (List.mem_filter.mp hf).2
      simp only [Bool.not_eq_eq_eq_not, Bool.not_true] at hkeep
      simp [hkeep]

/-- C8, counterexample: an accepted image-family job (jpg → pdf) is submitted
as `convert_file_task`, which `task_routes` sends to the `default` queue, not
the `image_queue` the routing table reserves for image-family tasks — so the
live submission path does not route by conversion family. -/
theorem C8_queue_routing_counterexample :
    submitted_queue "jpg" "pdf" = "default" ∧
    route_queue "app.tasks.conversion_tasks.convert_image_to_pdf" = "image_queue" ∧
    submitted_queue "jpg" "pdf" ≠
      route_queue "app.tasks.conversion_tasks.convert_image_to_pdf" := by
  refine ⟨rfl, rfl, ?_⟩
  decide

/-- C8, amended: the routing table does assign the family-specific tasks to
`pdf_queue` / `office_queue` / `image_queue`, but the submission endpoint
always dispatches the generic `convert_file_task`, so every accepted job —
whatever its conversion family — is enqueued on the single default queue. -/
theorem C8_queue_routing_amended :
    (∀ f t : String, submitted_queue f t = task_default_queue) ∧
    route_queue "app.tasks.conversion_tasks.convert_pdf_to_word" = "pdf_queue" ∧
    route_queue "app.tasks.conversion_tasks.convert_word_to_pdf" = "office_queue" ∧
    route_queue "app.tasks.conversion_tasks.convert_excel_to_pdf" = "office_queue" ∧
    route_queue "app.tasks.conversion_tasks.convert_image_to_pdf" = "image_queue" ∧
    route_queue "app.tasks.conversion_tasks.convert_pdf_to_image" = "pdf_queue" ∧
    task_default_queue = "default" :=
  ⟨fun f t => rfl, rfl, rfl, rfl, rfl, rfl, rfl⟩

/-- C7, counterexample: a zero-byte regular file passes
`BaseConverter.validate_input` (which checks only existence and
regular-file-ness), so a converter does not fail fast on empty input; with
the opaque renderer reporting one page, `PdfToImageConverter.convert` even
returns success and writes the output — refuting the claim that every
converter itself enforces "non-empty". -/
theorem C7_empty_input_counterexample :
    validate_input [("in.pdf", { size := 0 })] "in.pdf" = true ∧
    validate_input_claimed [("in.pdf", { size := 0 })] "in.pdf" = false ∧
    (pdf_to_image_convert [("in.pdf", { size := 0 })] "in.pdf" "out.png" 1 "/tmp/t"
      .noFail).2.1 = true := by
  refine ⟨rfl, rfl, by decide⟩

/-- C7, amended: every converter fails fast — returning `success = False`
with a non-empty descriptive message and leaving the filesystem untouched —
whenever the input path does not exist or is not a regular file; but the
enforced precondition is only "exists and is a regular file": zero-byte
files pass `validate_input` regardless of size (empty uploads are rejected
upstream by `validate_file_size`, not by the converters). -/
theorem C7_input_validation_amended :
    (∀ (fs : FS) (p : String),
      validate_input fs p = ((fs.look p).isSome && ((fs.look p).getD {}).isFile)) ∧
    (∀ (k : ConverterKind) (env : ConvEnv) (fs : FS) (inp outp : String),
      validate_input fs inp = false →
        converter_convert k env fs inp outp =
          (fs, false, "Input file not found or invalid: " ++ inp)) ∧
    (∀ (inp : String), ("Input file not found or invalid: " ++ inp) ≠ "") ∧
    (∀ (n : FNode) (p : String), n.isFile = true → validate_input [(p, n)] p = true) := by
  refine ⟨?_, ?_, ?_, ?_⟩
  · intro fs p
    cases h : fs.look p <;> simp [validate_input, h]
  · intro k env fs inp outp h
    cases k <;>
      simp [converter_convert, pdf_to_word_convert, word_to_pdf_convert,
        excel_to_pdf_convert, image_to_pdf_convert, pdf_to_image_convert, h]
  · intro inp h
    have hd := congrArg String.data h
    simp only [String.data_append] at hd
    exact absurd (congrArg List.length hd) (by simp)
  · intro n p h
    simp [validate_input, FS.look, h]

/-- C7, witness: on an empty filesystem the input is missing and, e.g., the
PDF→Word converter fails fast with the descriptive message, touching
nothing. -/
theorem C7_input_validation_amended_witness :
    converter_convert .pdfToWord {} [] "missing.pdf" "out.docx" =
      ([], false, "Input file not found or invalid: " ++ "missing.pdf") :=
  C7_input_validation_amended.2.1 .pdfToWord {} [] "missing.pdf" "out.docx" rfl

theorem char_toNat_ofNat (n : Nat) (h : n < 55296) : (Char.ofNat n).toNat = n := by
  rw [Char.ofNat, dif_pos (Or.inl h)]
  rfl

theorem toLower_ne (c d : Char) (hd : d.toNat < 97) (hne : c ≠ d) : Char.toLower c ≠ d := by
  unfold Char.toLower
  simp only []
  split_ifs with h
  · intro heq
    have hv : (Char.ofNat (c.toNat + 32)).toNat = c.toNat + 32 :=
      char_toNat_ofNat _ (by omega)
    rw [heq] at hv
    omega
  · exact hne

theorem toUpper_ne (c d : Char) (hd : d.toNat < 65) (hne : c ≠ d) : Char.toUpper c ≠ d := by
  unfold Char.toUpper
  simp only []
  split_ifs with h
  · intro heq
    have hv : (Char.ofNat (c.toNat - 32)).toNat = c.toNat - 32 :=
      char_toNat_ofNat _ (by omega)
    rw [heq] at hv
    omega
  · exact hne

theorem digitChar_toNat (m : Nat) (h : m < 10) : (Nat.digitChar m).toNat = 48 + m := by
  interval_cases m <;> rfl

theorem digitChar_digit (m : Nat) (h : m < 10) :
    48 ≤ (Nat.digitChar m).toNat ∧ (Nat.digitChar m).toNat ≤ 57 := by
  rw [digitChar_toNat m h]
  omega

theorem toDigitsCore_append (f n : Nat) (ds : List Char) :
    Nat.toDigitsCore 10 f n ds = Nat.toDigitsCore 10 f n [] ++ ds := by
  induction f generalizing n ds with
  | zero => simp [Nat.toDigitsCore]
  | succ f ih =>
    simp only [Nat.toDigitsCore]
    by_cases h : n / 10 = 0
    · simp [h]
    · simp only [h, if_false]
      rw [ih (n / 10) (Nat.digitChar (n % 10) :: ds),
        ih (n / 10) [Nat.digitChar (n % 10)], List.append_assoc]
      rfl

theorem toDigitsCore_digit_range (f n : Nat) (ds : List Char)
    (hds : ∀ c ∈ ds, 48 ≤ c.toNat ∧ c.toNat ≤ 57) :
    ∀ c ∈ Nat.toDigitsCore 10 f n ds, 48 ≤ c.toNat ∧ c.toNat ≤ 57 := by
  induction f generalizing n ds with
  | zero => simpa [Nat.toDigitsCore] using hds
  | succ f ih =>
    simp only [Nat.toDigitsCore]
    have hd : 48 ≤ (Nat.digitChar (n % 10)).toNat ∧ (Nat.digitChar (n % 10)).toNat ≤ 57 :=
      digitChar_digit _ (Nat.mod_lt n (by norm_num))
    by_cases h : n / 10 = 0
    · simp only [h, if_true]
      intro c hc
      rcases List.mem_cons.mp hc with rfl | hmem
      · exact hd
      · exact hds c hmem
    · simp only [h, if_false]
      apply ih
      intro c hc
      rcases List.mem_cons.mp hc with rfl | hmem
      · exact hd
      · exact hds c hmem

theorem digitsVal_append_last (l : List Char) (c : Char) :
    digitsVal (l ++ [c]) = 10 * digitsVal l + (c.toNat - 48) := by
  simp [digitsVal, List.foldl_append]

theorem toDigitsCore_val (f n : Nat) (h : n < 10 ^ f) :
    digitsVal (Nat.toDigitsCore 10 f n []) = n := by
  induction f generalizing n with
  | zero =>
    interval_cases n
    rfl
  | succ f ih =>
    simp only [Nat.toDigitsCore]
    by_cases hdiv : n / 10 = 0
    · have hn : n < 10 := by omega
      simp only [hdiv, if_true]
      have hdc := digitChar_toNat n hn
      simp only [digitsVal, List.foldl_cons, List.foldl_nil, Nat.mod_eq_of_lt hn, hdc]
      omega
    · simp only [hdiv, if_false]
      rw [toDigitsCore_append, digitsVal_append_last,
        digitChar_toNat (n % 10) (Nat.mod_lt n (by norm_num))]
      have hlt : n / 10 < 10 ^ f := by
        rw [Nat.div_lt_iff_lt_mul (by norm_num : 0 < 10)]
        calc n < 10 ^ (f + 1) := h
          _ = 10 ^ f * 10 := by ring
      rw [ih (n / 10) hlt]
      omega

theorem repr_val (n : Nat) : digitsVal (Nat.repr n).data = n := by
  have hb : n < 10 ^ (n + 1) := by
    calc n < 2 ^ n := Nat.lt_two_pow n
      _ ≤ 10 ^ n := Nat.pow_le_pow_left (by norm_num) n
      _ < 10 ^ (n + 1) := Nat.pow_lt_pow_right (by norm_num) (Nat.lt_succ_self n)
  simpa [Nat.repr, Nat.toDigits, List.asString] using toDigitsCore_val (n + 1) n hb

theorem repr_digit_range (n : Nat) :
    ∀ c ∈ (Nat.repr n).data, 48 ≤ c.toNat ∧ c.toNat ≤ 57 := by
  simpa [Nat.repr, Nat.toDigits, List.asString] using
    toDigitsCore_digit_range (n + 1) n [] (by simp)

theorem digitsVal_replicate_zero_append (k : Nat) (l : List Char) :
    digitsVal (List.replicate k '0' ++ l) = digitsVal l := by
  induction k with
  | zero => rfl
  | succ k ih => simpa [digitsVal, List.replicate_succ] using ih

theorem pad3_val (n : Nat) : digitsVal (pad3 n).data = n := by
  unfold pad3
  simp only []
  split_ifs with h
  · rw [show (⟨List.replicate (3 - (Nat.repr n).length) '0'⟩ ++ Nat.repr n : String).data =
      List.replicate (3 - (Nat.repr n).length) '0' ++ (Nat.repr n).data from
        String.data_append _ _]
    rw [digitsVal_replicate_zero_append]
    exact repr_val n
  · exact repr_val n

theorem pad3_injective (m n : Nat) (h : pad3 m = pad3 n) : m = n := by
  have := congrArg (fun s : String => digitsVal s.data) h
  simpa [pad3_val] using this

theorem page_filename_inj (fmt : String) (i j : Nat)
    (h : page_filename fmt i = page_filename fmt j) : i = j := by
  unfold page_filename at h
  have hd := congrArg String.data h
  simp only [String.data_append] at hd
  have h1 := List.append_inj_left' hd rfl
  have h2 := List.append_inj_left' h1 rfl
  have h3 := List.append_inj_right h2 rfl
  exact pad3_injective i j (String.ext h3)

theorem takeWhile_all_append (p : Char → Bool) (l1 l2 : List Char)
    (h : ∀ a ∈ l1, p a = true) :
    (l1 ++ l2).takeWhile p = l1 ++ l2.takeWhile p := by
  induction l1 with
  | nil => simp
  | cons a t ih =>
    have ha := h a (by simp)
    simp only [List.cons_append, List.takeWhile_cons, ha, if_true]
    rw [ih (fun b hb => h b (by simp [hb]))]

theorem lastComponent_chars (p : String) : ∀ c ∈ (lastComponent p).data, c ≠ '/' := by
  intro c hc
  simp only [lastComponent, List.mem_reverse] at hc
  have := List.mem_takeWhile_imp hc
  simpa using this

theorem lastComponent_append (a b : String) (h : ∀ c ∈ b.data, c ≠ '/') :
    lastComponent (a ++ "/" ++ b) = b := by
  apply String.ext
  simp only [lastComponent, String.data_append, List.reverse_append]
  rw [takeWhile_all_append]
  · have hslash : (List.takeWhile (fun c => !(c == '/'))
        (("/").data.reverse ++ a.data.reverse)) = [] := by
      simp [String.data]
    rw [← List.reverse_append] at hslash ⊢
    rw [List.reverse_append, hslash]
    simp
  · intro c hc
    have := h c (List.mem_reverse.mp hc)
    simpa using this

theorem find?_filter_imp (l : List (String × FNode)) (pred keep : String × FNode → Bool)
    (h : ∀ a, pred a = true → keep a = true) :
    (l.filter keep).find? pred = l.find? pred := by
  induction l with
  | nil => rfl
  | cons a t ih =>
    by_cases hk : keep a = true
    · simp only [List.filter_cons, hk, if_true, List.find?]
      cases hp : pred a
      · simpa [List.find?, hp] using ih
      · simp [List.find?, hp]
    · have hp : pred a = false := by
        cases hpa : pred a
        · rfl
        · exact absurd (h a hpa) hk
      simp only [List.filter_cons, hk, if_false, List.find?, hp]
      simpa [List.find?, hp] using ih

theorem FS.look_write_self (fs : FS) (p : String) (n : FNode) :
    (fs.write p n).look p = some n := by
  simp [FS.look, FS.write, List.find?]

theorem FS.look_write_ne (fs : FS) (p q : String) (n : FNode) (h : q ≠ p) :
    (fs.write p n).look q = fs.look q := by
  have hpq : (p == q) = false := beq_eq_false_iff_ne.mpr (fun e => h e.symm)
  simp only [FS.look, FS.write, List.find?, hpq]
  rw [find?_filter_imp]
  intro a ha
  have ha1 : a.1 = q := by simpa using ha
  simp [ha1]
  exact h

theorem FS.look_unlink_self (fs : FS) (p : String) : (fs.unlink p).look p = none := by
  have hn : (List.find? (fun e => e.1 == p) (fs.filter (fun e => !(e.1 == p)))) = none := by
    rw [List.find?_eq_none]
    intro a ha
    have := (List.mem_filter.mp ha).2
    simpa using this
  simp [FS.look, FS.unlink, hn]

theorem FS.look_unlink_ne (fs : FS) (p q : String) (h : q ≠ p) :
    (fs.unlink p).look q = fs.look q := by
  simp only [FS.look, FS.unlink]
  rw [find?_filter_imp]
  intro a ha
  have ha1 : a.1 = q := by simpa using ha
  simp [ha1]
  exact h

theorem FS.look_unlink_none (fs : FS) (p q : String) (h : fs.look q = none) :
    (fs.unlink p).look q = none := by
  by_cases hq : q = p
  · subst hq
    exact FS.look_unlink_self fs q
  · rw [FS.look_unlink_ne fs p q hq]
    exact h

theorem look_foldl_write_not_mem (fs : FS) (ps : List String) (n : FNode) (q : String)
    (h : q ∉ ps) : (ps.foldl (fun a p => a.write p n) fs).look q = fs.look q := by
  induction ps generalizing fs with
  | nil => rfl
  | cons p t ih =>
    simp only [List.foldl_cons]
    rw [ih (fs.write p n) (fun hm => h (by simp [hm]))]
    exact FS.look_write_ne fs p q n (fun e => h (by simp [e]))

theorem look_foldl_write_mem (fs : FS) (ps : List String) (n : FNode) (q : String)
    (h : q ∈ ps) : (ps.foldl (fun a p => a.write p n) fs).look q = some n := by
  induction ps generalizing fs with
  | nil => simp at h
  | cons p t ih =>
    simp only [List.foldl_cons]
    by_cases ht : q ∈ t
    · exact ih (fs.write p n) ht
    · have hqp : q = p := by
        rcases List.mem_cons.mp h with h1 | h1
        · exact h1
        · exact absurd h1 ht
      subst hqp
      rw [look_foldl_write_not_mem (fs.write q n) t n q ht]
      exact FS.look_write_self fs q n

theorem look_foldl_unlink_not_mem (fs : FS) (ps : List String) (q : String)
    (h : q ∉ ps) : (ps.foldl (fun a p => a.unlink p) fs).look q = fs.look q := by
  induction ps generalizing fs with
  | nil => rfl
  | cons p t ih =>
    simp only [List.foldl_cons]
    rw [ih (fs.unlink p) (fun hm => h (by simp [hm]))]
    exact FS.look_unlink_ne fs p q (fun e => h (by simp [e]))

theorem look_foldl_unlink_mem (fs : FS) (ps : List String) (q : String)
    (h : q ∈ ps) : (ps.foldl (fun a p => a.unlink p) fs).look q = none := by
  induction ps generalizing fs with
  | nil => simp at h
  | cons p t ih =>
    simp only [List.foldl_cons]
    by_cases ht : q ∈ t
    · exact ih (fs.unlink p) ht
    · have hqp : q = p := by
        rcases List.mem_cons.mp h with h1 | h1
        · exact h1
        · exact absurd h1 ht
      subst hqp
      rw [look_foldl_unlink_not_mem (fs.unlink q) t q ht]
      exact FS.look_unlink_self fs q

theorem pdf_to_image_run_spec (fs : FS) (pps : List String) (zp op : String) (N : Nat)
    (hzp : zp ∉ pps) (hzo : zp ≠ op) :
    (pdf_to_image_run fs pps zp op N).2.1 = true ∧
    (pdf_to_image_run fs pps zp op N).2.2 =
      "PDF converted to images successfully (" ++ Nat.repr N ++ " pages in ZIP)" ∧
    (pdf_to_image_run fs pps zp op N).1.look zp = some { entries := pps.map lastComponent } ∧
    (∀ p ∈ pps, (pdf_to_image_run fs pps zp op N).1.look p = none) ∧
    (pdf_to_image_run fs pps zp op N).1.look op = none ∧
    (∀ q, q ≠ zp → q ∉ pps → q ≠ op →
      (pdf_to_image_run fs pps zp op N).1.look q = fs.look q) := by
  unfold pdf_to_image_run
  simp only []
  set fs3 := (pps.foldl (fun a p => a.unlink p)
    ((pps.foldl (fun a p => a.write p {}) fs).write zp { entries := pps.map lastComponent }))
    with hfs3
  have h3zip : fs3.look zp = some { entries := pps.map lastComponent } := by
    rw [hfs3, look_foldl_unlink_not_mem _ _ _ hzp, FS.look_write_self]
  have h3p : ∀ p ∈ pps, fs3.look p = none := fun p hp => look_foldl_unlink_mem _ pps p hp
  have h3q : ∀ q, q ≠ zp → q ∉ pps → fs3.look q = fs.look q := by
    intro q hq1 hq2
    rw [hfs3, look_foldl_unlink_not_mem _ _ _ hq2, FS.look_write_ne _ _ _ _ hq1,
      look_foldl_write_not_mem _ _ _ _ hq2]
  by_cases hcond : zp ≠ op ∧ fs3.hasPath op
  · rw [if_pos hcond]
    have h4zip : (fs3.unlink op).look zp = some { entries := pps.map lastComponent } := by
      rw [FS.look_unlink_ne _ _ _ hzo]
      exact h3zip
    have hp4 : (fs3.unlink op).hasPath zp = true := by simp [FS.hasPath, h4zip]
    rw [if_neg (by simp [hp4])]
    refine ⟨rfl, rfl, h4zip, ?_, ?_, ?_⟩
    · intro p hp
      exact FS.look_unlink_none _ _ _ (h3p p hp)
    · exact FS.look_unlink_self _ _
    · intro q hq1 hq2 hq3
      rw [FS.look_unlink_ne _ _ _ hq3]
      exact h3q q hq1 hq2
  · rw [if_neg hcond]
    have hp4 : fs3.hasPath zp = true := by simp [FS.hasPath, h3zip]
    rw [if_neg (by simp [hp4])]
    have hop : fs3.look op = none := by
      rcases not_and_or.mp hcond with h1 | h1
      · exact absurd hzo h1
      · cases hlo : fs3.look op
        · rfl
        · exact absurd (by simp [FS.hasPath, hlo]) h1
    exact ⟨rfl, rfl, h3zip, h3p, hop, fun q hq1 hq2 hq3 => h3q q hq1 hq2⟩

theorem pad3_digit_range (n : Nat) :
    ∀ c ∈ (pad3 n).data, 48 ≤ c.toNat ∧ c.toNat ≤ 57 := by
  intro c hc
  unfold pad3 at hc
  simp only [] at hc
  split_ifs at hc with h
  · rw [String.data_append] at hc
    rcases List.mem_append.mp hc with h1 | h1
    · have := List.eq_of_mem_replicate h1
      subst this
      decide
    · exact repr_digit_range n c h1
  · exact repr_digit_range n c hc

theorem page_filename_no_slash (fmt : String) (h : ∀ c ∈ fmt.data, c ≠ '/')
    (i : Nat) : ∀ c ∈ (page_filename fmt i).data, c ≠ '/' := by
  intro c hc
  unfold page_filename at hc
  simp only [String.data_append] at hc
  rcases List.mem_append.mp hc with h1 | h1
  · rcases List.mem_append.mp h1 with h2 | h2
    · rcases List.mem_append.mp h2 with h3 | h3
      · intro heq
        subst heq
        exact absurd h3 (by decide)
      · have hr := pad3_digit_range i c h3
        intro heq
        subst heq
        revert hr
        decide
    · intro heq
      subst heq
      exact absurd h2 (by decide)
  · exact h c h1

/-- C5: a failure-free multi-page run (page_count = N ≥ 2) produces exactly
one archive, at the canonical output path with its extension replaced by
`.zip`, containing exactly the N entries `page_001.<fmt>` … `page_NNN.<fmt>`
in page order (pairwise distinct); no intermediate per-page file remains, no
stray file is left at the original output path, and nothing else on disk is
touched.  A failure-free single-page run (page_count = 1) instead produces a
single image file at the output path and reports success. -/
theorem C5_pdf_to_image_bundle (fs : FS) (input_path output_path temp_dir : String)
    (N : Nat)
    (hval : validate_input fs input_path = true)
    (hN : 2 ≤ N)
    (hzp : withSuffix output_path ".zip" ∉
      (List.range N).map (fun i => pagePath temp_dir output_path (i + 1)))
    (hzo : withSuffix output_path ".zip" ≠ output_path)
    (hfmt : ∀ c ∈ (pyLower (pdfOutputFormat output_path)).data, c ≠ '/') :
    (pdf_to_image_convert fs input_path output_path N temp_dir .noFail).2.1 = true ∧
    (pdf_to_image_convert fs input_path output_path N temp_dir .noFail).1.look
        (withSuffix output_path ".zip") =
      some { entries := ((List.range N).map
        (fun i => page_filename (pyLower (pdfOutputFormat output_path)) (i + 1))) } ∧
    ((List.range N).map
      (fun i => page_filename (pyLower (pdfOutputFormat output_path)) (i + 1))).length = N ∧
    ((List.range N).map
      (fun i => page_filename (pyLower (pdfOutputFormat output_path)) (i + 1))).Nodup ∧
    (∀ i < N, (pdf_to_image_convert fs input_path output_path N temp_dir .noFail).1.look
      (pagePath temp_dir output_path (i + 1)) = none) ∧
    (pdf_to_image_convert fs input_path output_path N temp_dir .noFail).1.look
      output_path = none ∧
    (∀ q, q ≠ withSuffix output_path ".zip" →
      (∀ i < N, q ≠ pagePath temp_dir output_path (i + 1)) → q ≠ output_path →
      (pdf_to_image_convert fs input_path output_path N temp_dir .noFail).1.look q =
        fs.look q) ∧
    (∀ (fs1 : FS) (inp out td : String), validate_input fs1 inp = true →
      pdf_to_image_convert fs1 inp out 1 td .noFail =
        (fs1.write out {}, true, "PDF converted to image successfully (1 page)")) := by
  have hconv : pdf_to_image_convert fs input_path output_path N temp_dir .noFail =
      pdf_to_image_run fs
        ((List.range N).map (fun i => pagePath temp_dir output_path (i + 1)))
        (withSuffix output_path ".zip") output_path N := by
    unfold pdf_to_image_convert
    rw [if_neg (by simp [hval]), if_neg (by omega), if_neg (by omega)]
  have hspec := pdf_to_image_run_spec fs
    ((List.range N).map (fun i => pagePath temp_dir output_path (i + 1)))
    (withSuffix output_path ".zip") output_path N hzp hzo
  have hmap : ((List.range N).map
      (fun i => pagePath temp_dir output_path (i + 1))).map lastComponent =
      (List.range N).map
        (fun i => page_filename (pyLower (pdfOutputFormat output_path)) (i + 1)) := by
    rw [List.map_map]
    apply List.map_congr_left
    intro i hi
    simp only [Function.comp_apply]
    unfold pagePath
    exact lastComponent_append _ _ (page_filename_no_slash _ hfmt _)
  rw [hconv]
  rcases hspec with ⟨hs1, hs2, hs3, hs4, hs5, hs6⟩
  refine ⟨hs1, by rw [hs3, hmap], by simp, ?_, ?_, hs5, ?_, ?_⟩
  · apply List.Nodup.map
    · intro a b hab
      have := page_filename_inj _ (a + 1) (b + 1) hab
      omega
    · exact List.nodup_range N
  · intro i hi
    apply hs4
    exact List.mem_map.mpr ⟨i, List.mem_range.mpr hi, rfl⟩
  · intro q hq1 hq2 hq3
    apply hs6 q hq1 ?_ hq3
    intro hmem
    rcases List.mem_map.mp hmem with ⟨i, hi, rfl⟩
    exact hq2 i (List.mem_range.mp hi) rfl
  · intro fs1 inp out td hv
    unfold pdf_to_image_convert
    rw [if_neg (by simp [hv]), if_neg (by omega), if_pos rfl]
    simp only []
    have hw : (fs1.write out {}).hasPath out = true := by
      simp [FS.hasPath, FS.look_write_self]
    rw [if_neg (by simp [hw])]

/-- C5, witness: a three-page conversion on a tiny concrete filesystem
produces `out.zip` holding `page_001.png`, `page_002.png`, `page_003.png`. -/
theorem C5_pdf_to_image_bundle_witness :
    (pdf_to_image_convert [("in.pdf", {})] "in.pdf" "out.png" 3 "tmp" .noFail).2.1 = true ∧
    (pdf_to_image_convert [("in.pdf", {})] "in.pdf" "out.png" 3 "tmp" .noFail).1.look
        (withSuffix "out.png" ".zip") =
      some { entries := ((List.range 3).map
        (fun i => page_filename (pyLower (pdfOutputFormat "out.png")) (i + 1))) } := by
  have h := C5_pdf_to_image_bundle [("in.pdf", {})] "in.pdf" "out.png" "tmp" 3
    (by decide) (by decide) (by decide) (by decide) (by decide)
  exact ⟨h.1, h.2.1⟩

theorem pagePath_inj (t o : String) (a b : Nat) (h : pagePath t o a = pagePath t o b) :
    a = b := by
  unfold pagePath at h
  have hd := congrArg String.data h
  simp only [String.data_append] at hd
  have h1 := List.append_inj_right hd rfl
  exact page_filename_inj _ a b (String.ext h1)

/-- C6, counterexample: a two-page conversion whose archive writing fails
midway (one entry already written) returns a failure result, yet the partial
archive at `out.zip` and the intermediate page images are still on disk
afterwards — the `except` handler (pdf_to_image.py lines 140–148) first
re-closes the document that line 116 already closed, which raises PyMuPDF's
"document closed" error before the unlink loop can run, and the handler
never unlinks the zip in any case — contradicting the claim that all
intermediate files and any partial archive are deleted before the error
propagates. -/
theorem C6_partial_archive_counterexample :
    (pdf_to_image_convert [("in.pdf", {})] "in.pdf" "out.png" 2 "tmp"
      (.atZip 1 "disk full")).2.1 = false ∧
    (pdf_to_image_convert [("in.pdf", {})] "in.pdf" "out.png" 2 "tmp"
      (.atZip 1 "disk full")).1.look (withSuffix "out.png" ".zip") =
      some { entries := ["page_001.png"] } ∧
    (pdf_to_image_convert [("in.pdf", {})] "in.pdf" "out.png" 2 "tmp"
      (.atZip 1 "disk full")).1.look (pagePath "tmp" "out.png" 1) = some {} := by
  refine ⟨by decide, by decide, by decide⟩

/-- C6, amended: only rendering-stage failures are cleaned up — the
conversion reports failure, every already-rendered page image is deleted and
the archive path is untouched.  An archive-stage failure is not cleaned up
at all: the handler crashes re-closing the already-closed document before
its unlink loop, so the partially written `.zip` and every intermediate page
file remain on disk, and the reported error becomes "document closed" rather
than the original failure. -/
theorem C6_mid_bundle_cleanup_amended (fs : FS)
    (input_path output_path temp_dir : String) (N : Nat)
    (hval : validate_input fs input_path = true)
    (hN : 2 ≤ N)
    (hfresh : ∀ i < N, fs.look (pagePath temp_dir output_path (i + 1)) = none)
    (hzp : withSuffix output_path ".zip" ∉
      (List.range N).map (fun i => pagePath temp_dir output_path (i + 1))) :
    (∀ (k : Nat) (m : String), k < N →
      (pdf_to_image_convert fs input_path output_path N temp_dir (.atRender k m)).2.1 = false ∧
      (∀ i < N, (pdf_to_image_convert fs input_path output_path N temp_dir
        (.atRender k m)).1.look (pagePath temp_dir output_path (i + 1)) = none) ∧
      (pdf_to_image_convert fs input_path output_path N temp_dir
        (.atRender k m)).1.look (withSuffix output_path ".zip") =
        fs.look (withSuffix output_path ".zip")) ∧
    (∀ (w : Nat) (m : String),
      (pdf_to_image_convert fs input_path output_path N temp_dir (.atZip w m)).2.1 = false ∧
      (pdf_to_image_convert fs input_path output_path N temp_dir (.atZip w m)).2.2 =
        "PDF to image conversion failed: document closed" ∧
      (∀ i < N, (pdf_to_image_convert fs input_path output_path N temp_dir
        (.atZip w m)).1.look (pagePath temp_dir output_path (i + 1)) = some {}) ∧
      (pdf_to_image_convert fs input_path output_path N temp_dir
        (.atZip w m)).1.look (withSuffix output_path ".zip") =
        some { entries := ((((List.range N).map
          (fun i => pagePath temp_dir output_path (i + 1))).map lastComponent).take w) }) := by
  constructor
  · intro k m hk
    have hred : pdf_to_image_convert fs input_path output_path N temp_dir (.atRender k m) =
        (((List.range k).map (fun i => pagePath temp_dir output_path (i + 1))).foldl
            (fun a p => a.unlink p)
          (((List.range k).map (fun i => pagePath temp_dir output_path (i + 1))).foldl
            (fun a p => a.write p {}) fs),
         false, "PDF to image conversion failed: " ++ m) := by
      unfold pdf_to_image_convert
      rw [if_neg (by simp [hval]), if_neg (by omega), if_neg (by omega)]
      simp only []
      rw [if_pos hk]
    have hwmem : ∀ q, q ∈ (List.range k).map (fun i => pagePath temp_dir output_path (i + 1)) →
        q ∈ (List.range N).map (fun i => pagePath temp_dir output_path (i + 1)) := by
      intro q hq
      rcases List.mem_map.mp hq with ⟨j, hj, rfl⟩
      have hjk := List.mem_range.mp hj
      exact List.mem_map.mpr ⟨j, List.mem_range.mpr (by omega), rfl⟩
    rw [hred]
    refine ⟨rfl, ?_, ?_⟩
    · intro i hi
      by_cases hik : i < k
      · exact look_foldl_unlink_mem _ _ _
          (List.mem_map.mpr ⟨i, List.mem_range.mpr hik, rfl⟩)
      · have hnm : pagePath temp_dir output_path (i + 1) ∉
            (List.range k).map (fun j => pagePath temp_dir output_path (j + 1)) := by
          intro hmem
          rcases List.mem_map.mp hmem with ⟨j, hj, hjeq⟩
          have := pagePath_inj _ _ _ _ hjeq.symm
          have hjk := List.mem_range.mp hj
          omega
        rw [look_foldl_unlink_not_mem _ _ _ hnm, look_foldl_write_not_mem _ _ _ _ hnm]
        exact hfresh i hi
    · have hnm : withSuffix output_path ".zip" ∉
          (List.range k).map (fun j => pagePath temp_dir output_path (j + 1)) :=
        fun hmem => hzp (hwmem _ hmem)
      rw [look_foldl_unlink_not_mem _ _ _ hnm, look_foldl_write_not_mem _ _ _ _ hnm]
  · intro w m
    have hred : pdf_to_image_convert fs input_path output_path N temp_dir (.atZip w m) =
        ((((List.range N).map (fun i => pagePath temp_dir output_path (i + 1))).foldl
              (fun a p => a.write p {}) fs).write (withSuffix output_path ".zip")
            { entries := ((((List.range N).map
                (fun i => pagePath temp_dir output_path (i + 1))).map lastComponent).take w) },
         false, "PDF to image conversion failed: document closed") := by
      unfold pdf_to_image_convert
      rw [if_neg (by simp [hval]), if_neg (by omega), if_neg (by omega)]
    rw [hred]
    refine ⟨rfl, rfl, ?_, FS.look_write_self _ _ _⟩
    intro i hi
    have hne : pagePath temp_dir output_path (i + 1) ≠ withSuffix output_path ".zip" := by
      intro he
      apply hzp
      rw [← he]
      exact List.mem_map.mpr ⟨i, List.mem_range.mpr hi, rfl⟩
    rw [FS.look_write_ne _ _ _ _ hne]
    exact look_foldl_write_mem _ _ _ _ (List.mem_map.mpr ⟨i, List.mem_range.mpr hi, rfl⟩)

/-- C6, amended witness: concrete two-page runs — a rendering failure at
page 1 leaves no intermediate behind, while an archive-stage failure leaves
`page_001.png` on disk and reports the "document closed" error. -/
theorem C6_mid_bundle_cleanup_amended_witness :
    (pdf_to_image_convert [("in.pdf", {})] "in.pdf" "out.png" 2 "tmp"
      (.atRender 1 "renderer crash")).2.1 = false ∧
    (pdf_to_image_convert [("in.pdf", {})] "in.pdf" "out.png" 2 "tmp"
      (.atRender 1 "renderer crash")).1.look (pagePath "tmp" "out.png" 1) = none ∧
    (pdf_to_image_convert [("in.pdf", {})] "in.pdf" "out.png" 2 "tmp"
      (.atZip 1 "disk full")).2.2 = "PDF to image conversion failed: document closed" ∧
    (pdf_to_image_convert [("in.pdf", {})] "in.pdf" "out.png" 2 "tmp"
      (.atZip 1 "disk full")).1.look (pagePath "tmp" "out.png" 1) = some {} := by
  have h := C6_mid_bundle_cleanup_amended [("in.pdf", {})] "in.pdf" "out.png" "tmp" 2
    (by decide) (by decide) (by decide) (by decide)
  have h1 := h.1 1 "renderer crash" (by decide)
  have h2 := h.2 1 "disk full"
  exact ⟨h1.1, h1.2.1 0 (by decide), h2.2.1, h2.2.2.1 0 (by decide)⟩

theorem sanitize_chars (f : String) :
    ∀ c ∈ (sanitize_filename f).data, keepChar c = true ∧ c ≠ '/' := by
  intro c hc
  have hmem : c ∈ ((lastComponent f).data.filter keepChar).map
      (fun c => if c == ' ' then '_' else c) := by
    unfold sanitize_filename at hc
    simp only [] at hc
    split_ifs at hc with h
    · rw [String.data_append] at hc
      rcases List.mem_append.mp hc with h1 | h1
      · have hsub := List.take_subset 250
          ((pySplitext ⟨((lastComponent f).data.filter keepChar).map
            (fun c => if c == ' ' then '_' else c)⟩).1.data)
        have h2 := hsub h1
        unfold pySplitext at h2
        simp only [] at h2
        split_ifs at h2 with ha hb
        · exact h2
        · exact h2
        · exact List.take_subset _ _ h2
      · unfold pySplitext at h1
        simp only [] at h1
        split_ifs at h1 with ha hb
        · simp at h1
        · simp at h1
        · exact List.drop_subset _ _ h1
    · exact hc
  rcases List.mem_map.mp hmem with ⟨c0, hc0, rfl⟩
  have hk : keepChar c0 = true := List.of_mem_filter hc0
  by_cases hsp : (c0 == ' ') = true
  · simp only [hsp, if_true]
    exact ⟨by decide, by decide⟩
  · simp only [hsp, if_false]
    refine ⟨hk, ?_⟩
    intro heq
    subst heq
    exact absurd hk (by decide)

theorem dropWhile_eq_self_of_not (l : List Char) (h : ∀ c ∈ l, c ≠ '.') :
    l.dropWhile (fun c => c == '.') = l := by
  cases l with
  | nil => rfl
  | cons c t =>
    have := h c (by simp)
    simp [List.dropWhile_cons, this]

theorem pathSuffix_cases (p : String) :
    pathSuffix p = "" ∨
    ∃ post : List Char, pathSuffix p = ⟨'.' :: post⟩ ∧
      (∀ c ∈ post, c ≠ '.') ∧ (∀ c ∈ post, c ∈ (lastComponent p).data) := by
  unfold pathSuffix
  simp only []
  split_ifs with h1 h2 h3
  · exact .inl rfl
  · exact .inl rfl
  · exact .inl rfl
  · refine .inr ⟨((lastComponent p).data.reverse.takeWhile (fun c => !(c == '.'))).reverse,
      rfl, ?_, ?_⟩
    · intro c hc
      have := List.mem_takeWhile_imp (List.mem_reverse.mp hc)
      simpa using this
    · intro c hc
      have := List.takeWhile_subset (l := (lastComponent p).data.reverse)
        (p := fun c => !(c == '.')) (List.mem_reverse.mp hc)
      exact List.mem_reverse.mp this

theorem ext_chars (s : String) :
    ∀ c ∈ (get_file_extension s).data, c ≠ '.' ∧ c ≠ '/' := by
  intro c hc
  unfold get_file_extension pyLower at hc
  rcases List.mem_map.mp hc with ⟨c0, hc0, rfl⟩
  have hc0props : c0 ≠ '.' ∧ c0 ≠ '/' := by
    rcases pathSuffix_cases s with h | ⟨post, heq, hdot, hmem⟩
    · rw [h] at hc0
      simp [lstripDots] at hc0
    · rw [heq] at hc0
      unfold lstripDots at hc0
      simp only [] at hc0
      rw [List.dropWhile_cons] at hc0
      simp only [show (('.' : Char) == '.') = true from rfl, if_true] at hc0
      rw [dropWhile_eq_self_of_not post hdot] at hc0
      exact ⟨hdot c0 hc0, lastComponent_chars s c0 (hmem c0 hc0)⟩
  exact ⟨toLower_ne c0 '.' (by decide) hc0props.1,
    toLower_ne c0 '/' (by decide) hc0props.2⟩

/-- C10: the stored upload name is exactly `{job_id}_input.{ext}` with `ext`
the lowercased extension of the sanitized client filename; `ext` contains no
`/` and no `.`, so the stored name contains no path separator (given the
UUID job id contains none) and cannot traverse directories; the stored
location depends only on the job id and that extension; and the final
component of the saved path is exactly the stored name — writes stay inside
the configured upload/scratch directory. -/
theorem C10_upload_filename_safe (job_id client_filename : String)
    (hjob : ∀ c ∈ job_id.data, c ≠ '/') :
    unique_input_filename job_id client_filename =
      job_id ++ "_input." ++ get_file_extension (sanitize_filename client_filename) ∧
    (∀ c ∈ (get_file_extension (sanitize_filename client_filename)).data,
      c ≠ '/' ∧ c ≠ '.') ∧
    (∀ c ∈ (unique_input_filename job_id client_filename).data, c ≠ '/') ∧
    (∀ f2 : String,
      get_file_extension (sanitize_filename f2) =
        get_file_extension (sanitize_filename client_filename) →
      unique_input_filename job_id f2 = unique_input_filename job_id client_filename) ∧
    (∀ base_dir : String,
      saved_upload_path base_dir job_id client_filename =
        base_dir ++ "/" ++ unique_input_filename job_id client_filename ∧
      lastComponent (saved_upload_path base_dir job_id client_filename) =
        unique_input_filename job_id client_filename) := by
  have hext := ext_chars (sanitize_filename client_filename)
  have hslash : ∀ c ∈ (unique_input_filename job_id client_filename).data, c ≠ '/' := by
    intro c hc
    unfold unique_input_filename at hc
    simp only [String.data_append] at hc
    rcases List.mem_append.mp hc with h1 | h1
    · rcases List.mem_append.mp h1 with h2 | h2
      · exact hjob c h2
      · intro heq
        subst heq
        exact absurd h2 (by decide)
    · exact (hext c h1).2
  refine ⟨rfl, fun c hc => ⟨(hext c hc).2, (hext c hc).1⟩, hslash, ?_, ?_⟩
  · intro f2 h2
    unfold unique_input_filename
    simp only []
    rw [h2]
  · intro base_dir
    exact ⟨rfl, lastComponent_append base_dir _ hslash⟩

/-- C10, witness: a traversal-laden client filename `../../etc/pa sswd.PDF`
is stored as exactly `123e4567_input.pdf` directly under the upload
directory. -/
theorem C10_upload_filename_safe_witness :
    unique_input_filename "123e4567" "../../etc/pa sswd.PDF" = "123e4567_input.pdf" ∧
    lastComponent (saved_upload_path "/srv/uploads" "123e4567" "../../etc/pa sswd.PDF") =
      "123e4567_input.pdf" := by
  have h := C10_upload_filename_safe "123e4567" "../../etc/pa sswd.PDF" (by decide)
  have h2 := (h.2.2.2.2 "/srv/uploads").2
  constructor
  · decide
  · rw [h2]
    decide
